import Mathlib

/-!
Verification of the phrase-matching core of VoiceATC AI Helper
(`src/voiceatc_helper.py`), a Python script that maps recognized speech
fragments onto canonical ATC phrases and re-speaks them.

Python strings are modelled as `List Char`.  Python `str.lower` is modelled
on its ASCII fast path (the fragments and variants in this repository are
ASCII); `str.strip()` with no argument is modelled on the ASCII whitespace
characters it removes (code points 9-13 and 28-32).  Python `a in b` on
strings is contiguous-substring containment.
-/

/-- Python strings, modelled as lists of characters. -/
abbrev PyStr := List Char

/-- Python `str.isspace` / the character class removed by `str.strip()`,
restricted to ASCII: horizontal tab through carriage return (9-13) and
file separator through space (28-32). -/
def pyIsSpace (c : Char) : Bool :=
  (9 ≤ c.toNat && c.toNat ≤ 13) || (28 ≤ c.toNat && c.toNat ≤ 32)

/-- Python `str.lower` on one character, ASCII case: `A`-`Z` (65-90) maps
to `a`-`z` (97-122); every other character is unchanged. -/
def pyLowerChar (c : Char) : Char :=
  if 65 ≤ c.toNat ∧ c.toNat ≤ 90 then Char.ofNat (c.toNat + 32) else c

/-- Python `str.lower`: lowercase each character. -/
def pyLower (s : PyStr) : PyStr :=
  s.map pyLowerChar

/-- Python `str.strip()`: remove leading and trailing whitespace. -/
def pyStrip (s : PyStr) : PyStr :=
  ((s.dropWhile pyIsSpace).reverse.dropWhile pyIsSpace).reverse

/-- Python `a.startswith(b)` flipped: does `b` begin with `a`? -/
def pyStartsWith : PyStr → PyStr → Bool
  | [], _ => true
  | _ :: _, [] => false
  | a :: as, b :: bs => a == b && pyStartsWith as bs

/-- Python `a in b` on strings: `a` occurs in `b` as a contiguous
substring (the empty string occurs in every string). -/
def pyIn (a : PyStr) : PyStr → Bool
  | [] => a.isEmpty
  | b :: bs => pyStartsWith a (b :: bs) || pyIn a bs

/-- One entry of the `mappings` list of `config/phrase_mappings.json`, as
`match_phrase` consumes it: `mapping.get("variants", [])` defaults a
missing `variants` key to the empty list, while `mapping["canonical"]` is
an unguarded dictionary access, so a missing `canonical` key is modelled
as `none` (its access raises `KeyError`). -/
structure Mapping where
  canonical : Option PyStr
  variants : List PyStr
deriving DecidableEq

/-- Outcome of one call to `VoiceATCHelper.match_phrase`: the Python
method returns a canonical string, returns `None`, or raises `KeyError`
on `mapping["canonical"]` when the matched entry lacks that key. -/
inductive MatchResult where
  | matched (canonical : PyStr)
  | noMatch
  | keyError
deriving DecidableEq

/-- The test of line 87 of `voiceatc_helper.py`:
`variant.lower() in text_lower or text_lower in variant.lower()`. -/
def matchesVariant (text_lower : PyStr) (variant : PyStr) : Bool :=
  pyIn (pyLower variant) text_lower || pyIn text_lower (pyLower variant)

/-- The mapping-table scan of `match_phrase` (lines 85-89): iterate the
entries in order; inside an entry iterate its variants in order; on the
first variant that matches, return `mapping["canonical"]` (raising
`KeyError` when the key is absent); return `None` when the table is
exhausted.  The loop body does not depend on which variant hit, so the
inner loop is embedded as `List.any`. -/
def matchFirst (text_lower : PyStr) : List Mapping → MatchResult
  | [] => .noMatch
  | m :: rest =>
    if m.variants.any (fun v => matchesVariant text_lower v) then
      match m.canonical with
      | some c => .matched c
      | none => .keyError
    else
      matchFirst text_lower rest

/-- `VoiceATCHelper.match_phrase` (lines 82-89): normalize the recognized
text with `recognized_text.lower().strip()` and scan the mapping table. -/
def match_phrase (phrase_mappings : List Mapping) (recognized_text : PyStr) : MatchResult :=
  matchFirst (pyStrip (pyLower recognized_text)) phrase_mappings

/-- The per-fragment dispatch of the main loop `listen_and_process`
(lines 119-131), driven by the list of recognized text fragments in
arrival order.  For each fragment the loop calls `match_phrase`; the
guard `if canonical:` dispatches to the synthesizer (`speak_phrase`) only
a result that is neither `None` nor the empty string.  A `KeyError`
raised inside `match_phrase` is not caught by the `except
KeyboardInterrupt` handler, so it aborts the loop: the first component
collects the texts handed to the synthesizer, in order, up to the crash;
the second is `true` when the loop died with an uncaught exception. -/
def listen_and_process (phrase_mappings : List Mapping) : List PyStr → List PyStr × Bool
  | [] => ([], false)
  | f :: fs =>
    match match_phrase phrase_mappings f with
    | .keyError => ([], true)
    | .noMatch => listen_and_process phrase_mappings fs
    | .matched c =>
      if c.isEmpty then
        listen_and_process phrase_mappings fs
      else
        let rest := listen_and_process phrase_mappings fs
        (c :: rest.1, rest.2)

/-- The states the mapping source can be in when
`_load_phrase_mappings` (lines 57-65) runs: the file is absent, the file
exists but `json.load` fails, or the file parses to a document whose
`mappings` key is the given list (`none` when the key is absent, since
`data.get("mappings", [])` then defaults to the empty list). -/
inductive MappingsSource where
  | absent
  | malformed
  | parsed (mappings : Option (List Mapping))
deriving DecidableEq

/-- Outcome of `_load_phrase_mappings`: either a table value is returned,
or an exception escapes (`json.JSONDecodeError` from `json.load`). -/
inductive LoadResult where
  | table (t : List Mapping)
  | raised
deriving DecidableEq

/-- `VoiceATCHelper._load_phrase_mappings` (lines 57-65): when the file is
absent it logs an error and returns the empty dictionary `{}` (an empty
table, modelled as the empty list of entries); when `json.load` fails the
exception propagates; otherwise it returns `data.get("mappings", [])`
with no validation of the entries. -/
def load_phrase_mappings : MappingsSource → LoadResult
  | .absent => .table []
  | .malformed => .raised
  | .parsed none => .table []
  | .parsed (some ms) => .table ms

/-- The mutable state of a `VoiceATCHelper` object that `match_phrase`
can see: the configuration dictionary and the loaded mapping table
(`self.phrase_mappings`).  The recognizer, audio and TTS handles carry no
data that `match_phrase` reads; they are modelled as an opaque field. -/
structure VoiceATCHelper where
  config : List (PyStr × PyStr)
  phrase_mappings : List Mapping
  handles : Nat
deriving DecidableEq

/-- A call `self.match_phrase(recognized_text)` on a helper object:
the method body contains no assignment and no I/O statement, so the call
returns the object state unchanged together with the result computed
from `self.phrase_mappings` and the argument. -/
def matchPhraseCall (self : VoiceATCHelper) (recognized_text : PyStr) :
    VoiceATCHelper × MatchResult :=
  (self, match_phrase self.phrase_mappings recognized_text)

/-- Modelled from the spec (section 4.2, steps 1-5), for the refinement
claim C1: normalize the fragment by trimming leading and trailing
whitespace and then lowercasing; return the canonical text of the first
phrase in table order having a variant whose lowercase form is a
substring of the normalized fragment or contains it; `none` when no
phrase matches.  (Which variant of the chosen phrase hit first does not
affect the value, so the inner search is `List.any`.) -/
def matchSpec (table : List Mapping) (fragment : PyStr) : Option PyStr :=
  let nf := pyLower (pyStrip fragment)
  Option.bind (table.find? (fun m => m.variants.any (fun v => matchesVariant nf v)))
    Mapping.canonical

/-- View an optional canonical text as a `MatchResult`. -/
def optToResult : Option PyStr → MatchResult
  | some c => .matched c
  | none => .noMatch

example : pyLower ("AbC".data) = ("abc".data) := by decide
example : pyStrip ("  ab c  ".data) = ("ab c".data) := by decide
example : pyIn ("b c".data) ("ab cd".data) = true := by decide
example : pyIn ([] : PyStr) ("x".data) = true := by decide
example :
    match_phrase [⟨some ("Cleared to land runway two seven".data),
      [("cleared to land".data), ("clear to land".data)]⟩]
      ("you are clear to land now".data)
      = .matched ("Cleared to land runway two seven".data) := by decide
example :
    match_phrase [⟨some ("Cleared to land runway two seven".data),
      [("cleared to land".data), ("clear to land".data)]⟩]
      ("say again".data) = .noMatch := by decide
example :
    match_phrase [⟨some ("X".data), [("a".data)]⟩] ([] : PyStr)
      = .matched ("X".data) := by decide

/-! Helper lemmas shared by the claim theorems. -/

/-- Packing a small code point into a character and back is the
identity. -/
theorem char_toNat_ofNat_of_lt {n : Nat} (h : n < 55296) :
    (Char.ofNat n).toNat = n := by
  have hv : n.isValidChar := Or.inl h
  simp [Char.ofNat, hv, Char.ofNatAux, Char.toNat, UInt32.toNat]

/-- ASCII lowercasing does not create or destroy whitespace. -/
theorem pyIsSpace_pyLowerChar (c : Char) :
    pyIsSpace (pyLowerChar c) = pyIsSpace c := by
  unfold pyLowerChar
  split
  · next h =>
    have h32 : (Char.ofNat (c.toNat + 32)).toNat = c.toNat + 32 :=
      char_toNat_ofNat_of_lt (by omega)
    have h1 : pyIsSpace (Char.ofNat (c.toNat + 32)) = false := by
      simp [pyIsSpace, h32]; omega
    have h2 : pyIsSpace c = false := by
      simp [pyIsSpace]; omega
    rw [h1, h2]
  · rfl

/-- Lowercasing commutes with stripping: the normalization
`recognized_text.lower().strip()` of the code equals the trim-then-fold
normalization of the spec. -/
theorem pyStrip_pyLower (s : PyStr) :
    pyStrip (pyLower s) = pyLower (pyStrip s) := by
  have hcomp : pyIsSpace ∘ pyLowerChar = pyIsSpace :=
    funext pyIsSpace_pyLowerChar
  unfold pyStrip pyLower
  rw [List.dropWhile_map, hcomp, ← List.map_reverse, List.dropWhile_map,
    hcomp, ← List.map_reverse]

/-- The empty string is a substring of every string. -/
theorem pyIn_nil_left (b : PyStr) : pyIn [] b = true := by
  cases b <;> simp [pyIn, pyStartsWith, List.isEmpty]

/-- The empty variant matches every normalized fragment. -/
theorem matchesVariant_nil (nf : PyStr) : matchesVariant nf [] = true := by
  simp [matchesVariant, pyLower, pyIn_nil_left]

/-- `optToResult` never produces the `KeyError` outcome. -/
theorem optToResult_ne_keyError (o : Option PyStr) :
    optToResult o ≠ .keyError := by
  cases o <;> simp [optToResult]

/-- On a table whose entries all have a `canonical` key, the scan loop
computes the canonical text of the first entry with a matching
variant. -/
theorem matchFirst_eq_optToResult_find (nf : PyStr) (t : List Mapping)
    (hc : ∀ m ∈ t, (m.canonical).isSome) :
    matchFirst nf t =
      optToResult (Option.bind
        (t.find? (fun m => m.variants.any (fun v => matchesVariant nf v)))
        Mapping.canonical) := by
  induction t with
  | nil => rfl
  | cons m rest ih =>
    cases h : m.variants.any (fun v => matchesVariant nf v) with
    | true =>
      obtain ⟨c, hcm⟩ :=
        Option.isSome_iff_exists.mp (hc m (List.mem_cons_self m rest))
      have hfind :
          List.find? (fun m => m.variants.any fun v => matchesVariant nf v)
            (m :: rest) = some m := by
        simp [List.find?, h]
      simp [matchFirst, h, hcm, hfind, optToResult]
    | false =>
      have hfind :
          List.find? (fun m => m.variants.any fun v => matchesVariant nf v)
            (m :: rest)
          = List.find? (fun m => m.variants.any fun v => matchesVariant nf v)
              rest := by
        simp [List.find?, h]
      rw [hfind]
      simp only [matchFirst]
      rw [if_neg (by simp [h])]
      exact ih (fun m' hm' => hc m' (List.mem_cons_of_mem _ hm'))

/-- Entries none of whose variants match are skipped by the scan. -/
theorem matchFirst_append_of_no_match (nf : PyStr) (pre rest : List Mapping)
    (hpre : ∀ p ∈ pre, p.variants.any (fun v => matchesVariant nf v) = false) :
    matchFirst nf (pre ++ rest) = matchFirst nf rest := by
  induction pre with
  | nil => rfl
  | cons p pre' ih =>
    simp only [List.cons_append, matchFirst]
    rw [if_neg (by simp [hpre p (List.mem_cons_self p pre')])]
    exact ih (fun q hq => hpre q (List.mem_cons_of_mem _ hq))

/-- A successful scan result is the canonical text of some table
entry. -/
theorem matchFirst_matched_mem (nf : PyStr) :
    ∀ (t : List Mapping) (c : PyStr), matchFirst nf t = .matched c →
      ∃ m ∈ t, m.canonical = some c := by
  intro t
  induction t with
  | nil =>
    intro c h
    simp [matchFirst] at h
  | cons m rest ih =>
    intro c h
    simp only [matchFirst] at h
    by_cases hm : (m.variants.any fun v => matchesVariant nf v) = true
    · rw [if_pos hm] at h
      cases hcm : m.canonical with
      | some c2 =>
        rw [hcm] at h
        injection h with hcc
        exact ⟨m, List.mem_cons_self m rest, by rw [hcm, hcc]⟩
      | none =>
        rw [hcm] at h
        exact MatchResult.noConfusion h
    · rw [if_neg hm] at h
      obtain ⟨m', hm', hcm'⟩ := ih c h
      exact ⟨m', List.mem_cons_of_mem _ hm', hcm'⟩

/-! Concrete tables used by the witnesses and counterexamples. -/

/-- The table of the end-to-end scenario in section 8 of the spec: one
phrase with two variants. -/
def landingTable : List Mapping :=
  [⟨some ("Cleared to land runway two seven".data),
    [("cleared to land".data), ("clear to land".data)]⟩]

/-- A two-entry table whose first entry has an empty variants list. -/
def skipTable : List Mapping :=
  [⟨some ("Y".data), []⟩, ⟨some ("X".data), [("a".data)]⟩]

/-- A one-entry table whose phrase has the empty string as its canonical
text. -/
def emptyCanonicalTable : List Mapping :=
  [⟨some ([] : PyStr), [("a".data)]⟩]

/-- Two distinct phrases sharing one canonical text. -/
def dupCanonicalTable : List Mapping :=
  [⟨some ("C".data), [("alpha".data)]⟩,
   ⟨some ("C".data), [("bravo".data)]⟩]

/-- A one-entry table preceding a phrase with an empty-string variant. -/
def preTable : List Mapping :=
  [⟨some ("Y".data), [("zzz".data)]⟩]

/-- A phrase carrying the empty string among its variants. -/
def emptyVariantPhrase : Mapping :=
  ⟨some ("X".data), [([] : PyStr)]⟩

/-! The claim theorems. -/

/-- C1: on every table whose entries all carry a canonical text and for
every fragment, `match_phrase` returns exactly what the spec algorithm
prescribes — the canonical text of the first phrase in table order
having a variant in bidirectional substring containment with the
trimmed-and-lowercased fragment, with no other normalization applied,
and `None` when no phrase qualifies. -/
theorem C1_match_phrase_follows_spec (t : List Mapping) (f : PyStr)
    (hc : ∀ m ∈ t, (m.canonical).isSome) :
    match_phrase t f = optToResult (matchSpec t f) := by
  unfold match_phrase matchSpec
  rw [pyStrip_pyLower]
  exact matchFirst_eq_optToResult_find (pyLower (pyStrip f)) t hc

/-- Witness for C1 at the spec scenario: fragment
`you are clear to land now` against the landing-clearance table. -/
theorem C1_witness :
    match_phrase landingTable ("you are clear to land now".data)
      = optToResult (matchSpec landingTable
          ("you are clear to land now".data)) :=
  C1_match_phrase_follows_spec landingTable
    ("you are clear to land now".data) (by decide)

/-- C5: when no variant of any phrase bidirectionally substring-matches
the normalized fragment, the scan exhausts the table and `match_phrase`
returns `None`. -/
theorem C5_exhausted_table_noMatch (t : List Mapping) (f : PyStr)
    (h : ∀ m ∈ t, ∀ v ∈ m.variants,
      matchesVariant (pyStrip (pyLower f)) v = false) :
    match_phrase t f = .noMatch := by
  unfold match_phrase
  induction t with
  | nil => rfl
  | cons m rest ih =>
    have hany : (m.variants.any
        fun v => matchesVariant (pyStrip (pyLower f)) v) = false := by
      rw [List.any_eq_false]
      intro v hv
      simp [h m (List.mem_cons_self m rest) v hv]
    simp only [matchFirst]
    rw [if_neg (by simp [hany])]
    exact ih (fun m' hm' v hv => h m' (List.mem_cons_of_mem _ hm') v hv)

/-- Witness for C5 at the spec scenario: fragment `say again` against
the landing-clearance table. -/
theorem C5_witness :
    match_phrase landingTable ("say again".data) = .noMatch :=
  C5_exhausted_table_noMatch landingTable ("say again".data) (by decide)

/-- C6: a `match_phrase` call is pure — it returns the helper object
(and so the mapping table) unchanged, and its result is determined by
the mapping table and the argument text alone, whatever the rest of the
object state is, so identical inputs always give identical results. -/
theorem C6_match_phrase_pure (h1 h2 : VoiceATCHelper) (t1 t2 : PyStr)
    (hm : h1.phrase_mappings = h2.phrase_mappings) (ht : t1 = t2) :
    (matchPhraseCall h1 t1).1 = h1 ∧
    (matchPhraseCall h1 t1).2 = (matchPhraseCall h2 t2).2 := by
  subst ht
  exact ⟨rfl, by simp [matchPhraseCall, hm]⟩

/-- Witness for C6: two helper objects agreeing on the table but
differing in configuration and handles give the same result, and the
call leaves the state unchanged. -/
theorem C6_witness :
    (matchPhraseCall ⟨[], landingTable, 0⟩ ("say again".data)).1
        = ⟨[], landingTable, 0⟩ ∧
    (matchPhraseCall ⟨[], landingTable, 0⟩ ("say again".data)).2
        = (matchPhraseCall ⟨[(("x".data), ("y".data))], landingTable, 5⟩
            ("say again".data)).2 :=
  C6_match_phrase_pure _ _ _ _ rfl rfl

/-- C7: matching is case-insensitive — two fragments that agree after
lowercasing produce identical results on every table. -/
theorem C7_case_insensitive (t : List Mapping) (f1 f2 : PyStr)
    (h : pyLower f1 = pyLower f2) :
    match_phrase t f1 = match_phrase t f2 := by
  unfold match_phrase
  rw [h]

/-- Witness for C7: `CLEARED TO LAND` and `cleared to land` match alike
on the table carrying the variant `cleared to land`. -/
theorem C7_witness :
    match_phrase landingTable ("CLEARED TO LAND".data)
      = match_phrase landingTable ("cleared to land".data) :=
  C7_case_insensitive landingTable ("CLEARED TO LAND".data)
    ("cleared to land".data) (by decide)

/-- C9: `match_phrase` never raises on a table whose entries all carry a
canonical text, while on a table holding an entry with a matching
variant but no `canonical` key the unguarded `mapping["canonical"]`
raises `KeyError` (the `variants` lookup is the only defaulted one). -/
theorem C9_keyError_on_missing_canonical :
    (∀ (t : List Mapping) (f : PyStr),
      (∀ m ∈ t, (m.canonical).isSome) → match_phrase t f ≠ .keyError) ∧
    match_phrase [⟨none, [("a".data)]⟩] ("a".data) = .keyError := by
  constructor
  · intro t f hc
    unfold match_phrase
    rw [matchFirst_eq_optToResult_find _ t hc]
    exact optToResult_ne_keyError _
  · decide

/-- Witness for C9 at the landing-clearance table, whose single entry
carries a canonical text. -/
theorem C9_witness :
    match_phrase landingTable ("say again".data) ≠ .keyError :=
  C9_keyError_on_missing_canonical.1 landingTable ("say again".data)
    (by decide)

/-- C10: a phrase carrying the empty string among its variants matches
every fragment — the empty variant is a substring of every normalized
fragment — so on a table containing such a phrase (entries all carrying
canonical texts) the matcher never returns `None`, and it returns that
phrase's canonical text whenever no earlier phrase matches. -/
theorem C10_empty_variant_matches_everything (pre post : List Mapping)
    (m : Mapping) (f : PyStr)
    (hv : ([] : PyStr) ∈ m.variants)
    (hc : ∀ m' ∈ pre ++ m :: post, (m'.canonical).isSome) :
    (∃ c, match_phrase (pre ++ m :: post) f = .matched c) ∧
    ((∀ p ∈ pre, (p.variants.any
        fun v => matchesVariant (pyStrip (pyLower f)) v) = false) →
      match_phrase (pre ++ m :: post) f = optToResult m.canonical) := by
  have hmany : (m.variants.any
      fun v => matchesVariant (pyStrip (pyLower f)) v) = true :=
    List.any_eq_true.mpr ⟨[], hv, matchesVariant_nil _⟩
  obtain ⟨c, hcm⟩ := Option.isSome_iff_exists.mp (hc m (by simp))
  constructor
  · unfold match_phrase
    rw [matchFirst_eq_optToResult_find _ _ hc]
    have hex : ∃ x, x ∈ pre ++ m :: post ∧
        (x.variants.any fun v => matchesVariant (pyStrip (pyLower f)) v)
          = true :=
      ⟨m, by simp, hmany⟩
    obtain ⟨m', hm'⟩ :=
      Option.isSome_iff_exists.mp (List.find?_isSome.mpr hex)
    obtain ⟨c', hcm'⟩ := Option.isSome_iff_exists.mp
      (hc m' (List.mem_of_find?_eq_some hm'))
    exact ⟨c', by rw [hm']; simp [hcm', optToResult]⟩
  · intro hpre
    unfold match_phrase
    rw [matchFirst_append_of_no_match _ pre _ hpre]
    simp [matchFirst, hmany, hcm, optToResult]

/-- Witness for C10: the table `preTable ++ [emptyVariantPhrase]` on the
fragment `hello`, which matches no variant of the leading entry. -/
theorem C10_witness :
    (∃ c, match_phrase (preTable ++ emptyVariantPhrase :: [])
        ("hello".data) = .matched c) ∧
    ((∀ p ∈ preTable, (p.variants.any
        fun v => matchesVariant (pyStrip (pyLower ("hello".data))) v)
          = false) →
      match_phrase (preTable ++ emptyVariantPhrase :: []) ("hello".data)
        = optToResult emptyVariantPhrase.canonical) :=
  C10_empty_variant_matches_everything preTable [] emptyVariantPhrase
    ("hello".data) (by decide) (by decide)

/-- C2 counterexample: the code has no special case for the empty
normalized fragment.  On the non-trivial table of one phrase with
variant `a`, both the empty fragment and a whitespace-only fragment
normalize to the empty string, which is a substring of the variant, so
`match_phrase` returns the canonical text `X` instead of `None`. -/
theorem C2_counterexample :
    match_phrase [⟨some ("X".data), [("a".data)]⟩] ([] : PyStr)
        = .matched ("X".data) ∧
    match_phrase [⟨some ("X".data), [("a".data)]⟩] ("  ".data)
        = .matched ("X".data) := by
  decide

/-- C2 amended: on a table whose entries all carry canonical texts, an
empty or whitespace-only fragment is not special-cased — it matches the
first phrase in table order with a non-empty variants list and returns
that phrase's canonical text, and yields `None` exactly when every
phrase has an empty (or missing) variants list. -/
theorem C2_amended_empty_fragment (t : List Mapping) (f : PyStr)
    (hf : pyStrip f = [])
    (hc : ∀ m ∈ t, (m.canonical).isSome) :
    match_phrase t f =
      optToResult (Option.bind (t.find? (fun m => !m.variants.isEmpty))
        Mapping.canonical) := by
  have hnf : pyStrip (pyLower f) = [] := by
    rw [pyStrip_pyLower, hf]
    rfl
  have hp : (fun m : Mapping =>
        m.variants.any fun v => matchesVariant [] v)
      = (fun m : Mapping => !m.variants.isEmpty) := by
    funext m
    cases hmv : m.variants with
    | nil => simp
    | cons v vs => simp [matchesVariant, pyIn_nil_left]
  unfold match_phrase
  rw [hnf, matchFirst_eq_optToResult_find _ t hc, hp]

/-- Witness for C2 amended: the whitespace-only fragment on a table
whose first entry has no variants: the second entry is returned. -/
theorem C2_witness :
    match_phrase skipTable ("  ".data) =
      optToResult (Option.bind (skipTable.find?
        (fun m => !m.variants.isEmpty)) Mapping.canonical) :=
  C2_amended_empty_fragment skipTable ("  ".data) (by decide) (by decide)

/-- C3 counterexample: on the table whose single phrase has the empty
string as canonical text, the fragment `a` yields a `Matched` result,
yet the session loop makes no synthesizer call at all — the dispatch
guard `if canonical:` treats the empty string as falsy — refuting
one-synthesizer-call-per-matched-fragment. -/
theorem C3_counterexample :
    match_phrase emptyCanonicalTable ("a".data) = .matched ([] : PyStr) ∧
    listen_and_process emptyCanonicalTable [("a".data)] = ([], false) := by
  decide

/-- The phrases the session loop hands to the synthesizer: one per
fragment whose match produced a non-empty canonical text, kept in the
arrival order of the fragments. -/
def dispatchedPhrases (t : List Mapping) (frags : List PyStr) : List PyStr :=
  frags.filterMap (fun f =>
    match match_phrase t f with
    | .matched c => if c.isEmpty then none else some c
    | _ => none)

/-- C3 amended: on a table whose entries all carry canonical texts, the
session loop terminates normally and invokes the synthesizer exactly
once per fragment whose match result is `Matched` with a non-empty
canonical text, in the arrival order of the fragments; a `Matched`
result whose canonical text is empty is not dispatched. -/
theorem C3_amended_dispatch_in_order (t : List Mapping)
    (frags : List PyStr) (hc : ∀ m ∈ t, (m.canonical).isSome) :
    listen_and_process t frags = (dispatchedPhrases t frags, false) := by
  induction frags with
  | nil => rfl
  | cons f fs ih =>
    have hne : match_phrase t f ≠ .keyError := by
      unfold match_phrase
      rw [matchFirst_eq_optToResult_find _ t hc]
      exact optToResult_ne_keyError _
    cases hm : match_phrase t f with
    | keyError => exact absurd hm hne
    | noMatch =>
      simp only [listen_and_process, dispatchedPhrases,
        List.filterMap_cons, hm]
      exact ih
    | matched c =>
      cases hce : c.isEmpty with
      | true =>
        simp only [listen_and_process, dispatchedPhrases,
          List.filterMap_cons, hm, hce, if_true]
        exact ih
      | false =>
        simp only [listen_and_process, dispatchedPhrases,
          List.filterMap_cons, hm, hce, if_false]
        rw [ih]
        rfl

/-- Witness for C3 amended at the spec session scenario: fragments f1,
f2, f3 where f1 and f3 match and f2 does not — evaluating both sides
shows exactly two dispatches, for f1 then f3. -/
theorem C3_witness :
    listen_and_process landingTable
        [("cleared to land".data), ("say again".data),
         ("you are clear to land now".data)]
      = (dispatchedPhrases landingTable
          [("cleared to land".data), ("say again".data),
           ("you are clear to land now".data)], false) :=
  C3_amended_dispatch_in_order landingTable
    [("cleared to land".data), ("say again".data),
     ("you are clear to land now".data)] (by decide)

/-- C4 counterexample: with the mapping source absent, loading does not
fail with a `ConfigError` — it logs and returns an empty fallback
table — and a parsed source whose single entry has an empty variants
list and an empty canonical text is accepted without validation,
refuting fail-on-invalid and all-or-nothing loading. -/
theorem C4_counterexample :
    load_phrase_mappings .absent = .table [] ∧
    load_phrase_mappings (.parsed (some [⟨some ([] : PyStr), []⟩]))
      = .table [⟨some ([] : PyStr), []⟩] := by
  decide

/-- C4 amended: when the mapping source is absent (or parses to a
document without a `mappings` key) loading returns an empty fallback
table and signals no error; when the source is malformed the JSON parse
exception propagates uncaught; when the source parses, the mappings
list is returned as-is, with entries with empty variants lists or empty
canonical texts accepted unvalidated. -/
theorem C4_amended_loading_behavior :
    load_phrase_mappings .absent = .table [] ∧
    load_phrase_mappings .malformed = .raised ∧
    load_phrase_mappings (.parsed none) = .table [] ∧
    (∀ ms : List Mapping,
      load_phrase_mappings (.parsed (some ms)) = .table ms) :=
  ⟨rfl, rfl, rfl, fun _ => rfl⟩

/-- C8 counterexample: the fragment `bravo` matches no variant of the
first phrase and so is matched by the second phrase, while `alpha` is
matched by the first phrase — yet the two results are the identical
value `matched "C"`.  The result therefore carries no identifier of the
matched phrase (the code returns only `mapping["canonical"]` and its
entries have no id field), refuting the claimed
`Matched(canonical_text, matched_phrase_id)` shape. -/
theorem C8_counterexample :
    matchesVariant (pyStrip (pyLower ("bravo".data))) ("alpha".data)
        = false ∧
    match_phrase dupCanonicalTable ("bravo".data)
        = .matched ("C".data) ∧
    match_phrase dupCanonicalTable ("alpha".data)
        = .matched ("C".data) := by
  decide

/-- C8 amended: a match result is either `Matched(canonical_text)` or
`NoMatch`; a successful result carries only the canonical text — which
is the canonical text of some table entry — and no phrase identifier,
and the diagnostic log reports the canonical text rather than an id. -/
theorem C8_amended_result_carries_canonical (t : List Mapping)
    (f : PyStr) (c : PyStr) (h : match_phrase t f = .matched c) :
    ∃ m ∈ t, m.canonical = some c :=
  matchFirst_matched_mem (pyStrip (pyLower f)) t c h

/-- Witness for C8 amended: the matched canonical text `C` of the
fragment `alpha` is the canonical text of an entry of the table. -/
theorem C8_witness :
    ∃ m ∈ dupCanonicalTable, m.canonical = some ("C".data) :=
  C8_amended_result_carries_canonical dupCanonicalTable ("alpha".data)
    ("C".data) (by decide)
